import Mathlib

/-!
Shallow embedding of `packages/san-cli/lib/Service.js` (san-cli).

JavaScript plain objects are modelled as association lists over `String`
keys (in property-insertion order), JS `Map`s likewise as association
lists preserving insertion order, and the relevant `Service` class
methods as pure functions over an explicit `Service` state record.
External collaborators (the `webpack-chain` builder, `webpack-merge`,
the terminal logger, the filesystem) are modelled opaquely, exactly as
the spec's §1 scopes them out.
-/

namespace SanCli

/-- A JSON-like JavaScript value: strings, numbers, and plain objects
(association lists of fields, in property order). -/
inductive JVal where
  | str (s : String)
  | num (n : Nat)
  | obj (fields : List (String × JVal))

/-- Property lookup on a JS object / `Map.get` (first matching key). -/
def getA {α : Type} (k : String) : List (String × α) → Option α
  | [] => none
  | (k', v) :: r => if k' = k then some v else getA k r

/-- Assigning a key on a JS object / `Map.set`: an existing key keeps its
position and gets the new value, a new key is appended at the end. -/
def setA {α : Type} (k : String) (v : α) : List (String × α) → List (String × α)
  | [] => [(k, v)]
  | (k', v') :: r => if k' = k then (k, v) :: r else (k', v') :: setA k v r

/-- Remove a key from an association list. -/
def eraseKey {α : Type} (k : String) : List (String × α) → List (String × α)
  | [] => []
  | (k', v) :: r => if k' = k then eraseKey k r else (k', v) :: eraseKey k r

/-- `Object.assign(t, s)`: every field of `s` is written onto `t` in
order, overwriting colliding keys (the JS call also mutates `t` in
place; state updates make that mutation explicit at the call sites). -/
def objAssign {α : Type} (t s : List (String × α)) : List (String × α) :=
  s.foldl (fun acc kv => setA kv.1 kv.2 acc) t

mutual
/-- `lodash.defaultsdeep(d, s)` (the merge used by `loadProjectOptions`,
Service.js lines 317 and 354): destination values always win; a key
missing from the destination is filled in from the source; when both
sides hold plain objects the fill-in recurses field-wise. -/
def ddeep : JVal → JVal → JVal
  | .obj df, .obj sf => .obj (ddFields df sf)
  | d, _ => d

/-- Field-wise part of `lodash.defaultsdeep`: destination fields keep
their position (each deep-defaulted against the same source key), and
source-only fields are appended afterwards in source order. -/
def ddFields : List (String × JVal) → List (String × JVal) → List (String × JVal)
  | [], sf => sf
  | (k, v) :: df, sf =>
    (k, match getA k sf with
        | some sv => ddeep v sv
        | none => v) :: ddFields df (eraseKey k sf)
end

/-- The regex test `/^https?:/.test(val)` in `ensureSlash`
(Service.js line 575). -/
def jsTestHttp (s : String) : Bool :=
  ['h', 't', 't', 'p', ':'].isPrefixOf s.data || ['h', 't', 't', 'p', 's', ':'].isPrefixOf s.data

/-- The replacement `val.replace(/^([^/.])/, '/$1')` in `ensureSlash`
(Service.js line 576): prepend a slash when the first character exists
and is neither a slash nor a dot. -/
def addLeadSlash (s : String) : String :=
  match s.data with
  | [] => s
  | c :: _ => if c = '/' || c = '.' then s else "/" ++ s

/-- The replacement `val.replace(/([^/])$/, '$1/')` in `ensureSlash`
(Service.js line 578): append a slash when the last character exists
and is not already a slash. -/
def addTrailSlash (s : String) : String :=
  match s.data.getLast? with
  | none => s
  | some c => if c = '/' then s else s ++ "/"

/-- `ensureSlash(config, key)` (Service.js lines 572-580), acting on the
value stored at the key: only string values are touched. -/
def ensureSlashVal (v : JVal) : JVal :=
  match v with
  | .str s => .str (addTrailSlash (if jsTestHttp s then s else addLeadSlash s))
  | v => v

/-- The replacement `config.publicPath.replace(/^\.\//, '')`
(Service.js line 364): strip one leading `./`. -/
def stripDotSlashVal (v : JVal) : JVal :=
  match v with
  | .str s =>
    match s.data with
    | '.' :: '/' :: rest => .str (String.mk rest)
    | _ => .str s
  | v => v

/-- `removeSlash(config, key)` (Service.js lines 567-571): strip one
trailing slash from a string value (`replace(/\/$/g, '')`). -/
def removeSlashVal (v : JVal) : JVal :=
  match v with
  | .str s =>
    match s.data.getLast? with
    | some '/' => .str (String.mk s.data.dropLast)
    | _ => .str s
  | v => v

/-- `normalizeConfig(config, filepath)` (Service.js lines 360-383):
normalize `publicPath` (ensureSlash, then strip a leading `./`) and
`outputDir` (strip a trailing slash).  The `pages` branch — resolving
each page's `entry`/`template` path against the config file's directory
— is path/filesystem glue on an external collaborator and is not
modelled; it does not touch `publicPath` or `outputDir`. -/
def normalizeConfig (cfg : JVal) : JVal :=
  match cfg with
  | .obj fs =>
    let fs := match getA "publicPath" fs with
      | some v => setA "publicPath" (stripDotSlashVal (ensureSlashVal v)) fs
      | none => fs
    let fs := match getA "outputDir" fs with
      | some v => setA "outputDir" (removeSlashVal v) fs
      | none => fs
    .obj fs
  | v => v

/-- Modelled from the spec: the compiled-in defaults exported by
`./options` (a file of this repository that is not under `src/`); the
spec names `publicPath: ""` and `outputDir: "dist"` as its defaults. -/
def defaultConfig : JVal :=
  .obj [("publicPath", .str ""), ("outputDir", .str "dist")]

/-- The merged configuration built by `loadProjectOptions`
(Service.js lines 307-358) before normalization: constructor-supplied
options defaulted by the compiled-in defaults (line 317), then — when a
config file was found — used as defaults under the file's own config
(line 354).  File discovery and schema validation are filesystem /
external-collaborator steps; the file's parsed content enters as the
`fileConfig` argument (`none` models "no config file found"). -/
def mergedProjectOptions (initOpts : JVal) (fileConfig : Option JVal) : JVal :=
  let config := ddeep initOpts defaultConfig
  match fileConfig with
  | some fc => ddeep fc config
  | none => config

/-- The value `loadProjectOptions` resolves to (Service.js line 358):
the merged configuration, normalized. -/
def loadProjectOptions (initOpts : JVal) (fileConfig : Option JVal) : JVal :=
  normalizeConfig (mergedProjectOptions initOpts fileConfig)

/-- The first defined of two optional values (`a` wins when present;
used to state per-key results of `Object.assign`). -/
def firstSome {α : Type} (a b : Option α) : Option α :=
  match a with
  | some v => some v
  | none => b

/-- Top-level field of an object value (helper for stating lookups on
configuration results). -/
def topField (k : String) (v : JVal) : Option JVal :=
  match v with
  | .obj fs => getA k fs
  | _ => none

/-! ### `getCommandName` (Service.js lines 582-587)

`command.replace(/\s{2,}/g, ' ').split(/\s+(?![^[]*]|[^<]*>)/)[0].trim()`.
Strings are handled through their character lists.  `isWS` models the
core of the regex class `\s`. -/

/-- The whitespace characters recognised by the regex class `\s`
(restricted to its ASCII core, which is all the claims depend on). -/
def isWS (c : Char) : Bool :=
  c = ' ' || c = '\t' || c = '\n' || c = '\r' || c = '\x0b' || c = '\x0c'

/-- One alternative of the regex lookahead: `[^[]*]` (with `cl := ']'`,
`op := '['`) or `[^<]*>` (with `cl := '>'`, `op := '<'`) matches at the
start of the text exactly when a `cl` occurs before any `op`. -/
def laOne (cl op : Char) : List Char → Bool
  | [] => false
  | c :: r => if c = cl then true else if c = op then false else laOne cl op r

/-- The lookahead body `[^[]*]|[^<]*>` of the split regex. -/
def matchLA (t : List Char) : Bool :=
  laOne ']' '[' t || laOne '>' '<' t

/-- `replace(/\s{2,}/g, ' ')`: every run of two or more whitespace
characters collapses to a single space; an isolated whitespace
character is kept as-is. -/
def collapse : List Char → List Char
  | [] => []
  | [c] => [c]
  | a :: b :: r =>
    if isWS a && isWS b then collapse (' ' :: r)
    else a :: collapse (b :: r)
  termination_by l => l.length

/-- The first element of `split(/\s+(?![^[]*]|[^<]*>)/)` on a string in
which every whitespace run has length one (the output of `collapse`):
scan until the first whitespace character whose negative lookahead
succeeds (i.e. `matchLA` fails on the rest), keeping everything before
it. -/
def firstTok : List Char → List Char
  | [] => []
  | c :: r => if isWS c && !matchLA r then [] else c :: firstTok r

/-- Leading-whitespace removal (half of `String.prototype.trim`). -/
def lstrip (l : List Char) : List Char := l.dropWhile isWS

/-- Trailing-whitespace removal (the other half of `trim`). -/
def rstrip (l : List Char) : List Char := (l.reverse.dropWhile isWS).reverse

/-- `String.prototype.trim`. -/
def trimWS (l : List Char) : List Char := rstrip (lstrip l)

/-- `getCommandName` on character lists: collapse whitespace runs, take
the first split token, trim it. -/
def gcnL (l : List Char) : List Char := trimWS (firstTok (collapse l))

/-- `getCommandName(command)` (Service.js lines 582-587). -/
def getCommandName (s : String) : String := String.mk (gcnL s.data)

/-! ### The `Service` state

The class's mutable fields become an explicit record.  Pre-handlers
(registered through `registerCommandFlag`) are functions from the
parsed argv to a JS value, of which only "is it exactly the boolean
`false`" is ever inspected by the dispatch loop. -/

/-- The return value of a pre-handler, with `=== false` distinguished
exactly as the dispatch loop (Service.js line 414) distinguishes it. -/
inductive JSVal where
  | vFalse
  | vTrue
  | vUndef
  | vNum (n : Nat)
deriving DecidableEq

/-- An entry of `webpackRawConfigFns`: a function (whose optional
return value is merged) or a literal fragment
(Service.js lines 517-528).  The finalized webpack configuration is
opaque and modelled as a `Nat`. -/
inductive RawEntry where
  | fnR (f : Nat → Option Nat)
  | litR (v : Nat)

/-- A stored command descriptor (Service.js lines 293-300).  `handler`
is an opaque tag; `none` models the default fallback handler installed
at lines 285-289, which only logs an "empty handler" warning.
`describe` is `none` where the code stores `false`. -/
structure CmdDescriptor where
  command : String
  handler : Option Nat
  aliases : Option String
  extend_ : Option String
  describe : Option String
  builder : List (String × JVal)

/-- The registries and composer sequences a plugin's `apply` can reach
through the capability-scoped API (commands, flags/pre-handlers, chain
and raw webpack mutators, dev-server middlewares).  Pre-handler entries
are `Option`-valued because the dispatch loop re-checks
`typeof handler === 'function'` (line 411); `registerCommandFlag`
itself only ever stores functions. -/
structure CmdState where
  registeredCommands : List (String × CmdDescriptor)
  registeredCommandFlags : List (String × List (String × JVal))
  registeredCommandHandlers : List (String × List (Option (JVal → JSVal)))
  webpackChainFns : List (Nat → Nat)
  webpackRawConfigFns : List RawEntry
  devServerMiddlewares : List Nat

/-- A loaded plugin record: an id plus its `apply` function.  `apply`
receives the capability-scoped API and mutates the service through it;
that effect is modelled as a transformer of `CmdState` (the state the
API exposes for mutation). -/
structure PluginRec where
  id : String
  apply : CmdState → CmdState

/-- The `Service` instance state.  `plugins` entries are `Option`al
because `_loadPlugin` returns `undefined` for a failed load and
`resolvePlugins` keeps that `undefined` in the array.
`chainWebpackOpt` / `configWebpackOpt` model the `chainWebpack` /
`configWebpack` function fields of `this.projectOptions` read by
`init` (lines 187-192). -/
structure Service where
  initialized : Bool
  mode : Option String
  plugins : List (Option (PluginRec × Option JVal))
  core : CmdState
  chainWebpackOpt : Option (Nat → Nat)
  configWebpackOpt : Option RawEntry
  initProjectOptions : JVal

/-- The empty registries of a fresh constructor call
(Service.js lines 43-53). -/
def emptyCmdState : CmdState :=
  { registeredCommands := []
    registeredCommandFlags := []
    registeredCommandHandlers := []
    webpackChainFns := []
    webpackRawConfigFns := []
    devServerMiddlewares := [] }

/-! ### Plugin loading (Service.js lines 105-173) -/

/-- A JS value a plugin specifier or a required module may be: a string
module reference, an object (with optional `id`, optional `apply`
function and an opaque tag), or some other non-object value. -/
inductive JSModVal where
  | strV (s : String)
  | pobj (id : Option String) (applyFn : Option (CmdState → CmdState)) (tag : Nat)
  | nonObj (tag : Nat)

/-- A plugin specifier: a plain value or a `[value, options]` pair. -/
inductive PSpec where
  | plain (v : JSModVal)
  | pairSpec (v : JSModVal) (opts : JVal)

/-- `_loadPlugin(p)` (Service.js lines 123-173).  `env` models
`require(resolvePlugin(p, this.cwd))`: `none` is a throwing require
(module missing / malformed).  Every failure path logs and falls off
the function, returning `undefined` — modelled as `none`; the
`__esModule` default-export unwrapping is module-system glue and is
not modelled. -/
def loadPlugin (env : String → Option JSModVal) (spec : PSpec) : Option (PluginRec × Option JVal) :=
  let po : JSModVal × Option JVal :=
    match spec with
    | .pairSpec v o => (v, some o)
    | .plain v => (v, none)
  match po.1 with
  | .strV name =>
    match env name with
    | none => none
    | some m =>
      match m with
      | .pobj oid (some ap) _ => some ({ id := oid.getD name, apply := ap }, po.2)
      | _ => none
  | .pobj (some pid) (some ap) _ => some ({ id := pid, apply := ap }, po.2)
  | _ => none

/-- Modelled from the spec: the five built-in plugins (`base`, `css`,
`app`, `optimization`, `babel`) are loaded from `../configs/<id>`,
files of this repository that are not under `src/`; the spec only says
they are valid plugin records loaded unconditionally before any user
plugin, so their configuration effects are left abstract (identity). -/
def builtinPlugins : List PluginRec :=
  ["base", "css", "app", "optimization", "babel"].map fun i =>
    { id := i, apply := fun st => st }

/-- `resolvePlugins(plugins, useBuiltInPlugin)`
(Service.js lines 105-122): built-ins first, then every user specifier
mapped through `_loadPlugin` — including the `undefined` results of
failed loads. -/
def resolvePlugins (env : String → Option JSModVal) (plugins : List PSpec)
    (useBuiltInPlugin : Bool) : List (Option (PluginRec × Option JVal)) :=
  let builtIn : List (Option (PluginRec × Option JVal)) :=
    if useBuiltInPlugin then builtinPlugins.map (fun r => some (r, none)) else []
  match plugins with
  | [] => builtIn
  | _ => builtIn ++ plugins.map (loadPlugin env)

/-- `initPlugin(plugin)` (Service.js lines 230-242) on one entry of
`this.plugins`: destructuring `const {id, apply} = plugin` throws a
`TypeError` when the entry is `undefined`; otherwise the plugin's
`apply` runs with the capability-scoped API. -/
def initPlugin (st : CmdState) : Option (PluginRec × Option JVal) → Except String CmdState
  | none => .error "TypeError: Cannot destructure property 'id' of 'plugin' as it is undefined."
  | some (p, _opts) => .ok (p.apply st)

/-- The `this.plugins.forEach(plugin => this.initPlugin(plugin))` loop
of `init` (lines 183-185); a thrown `TypeError` aborts the loop. -/
def initPlugins : List (Option (PluginRec × Option JVal)) → CmdState → Except String CmdState
  | [], st => .ok st
  | e :: rest, st =>
    match initPlugin st e with
    | .error m => .error m
    | .ok st' => initPlugins rest st'

/-- The tail of `init` (Service.js lines 186-192): append the project
options' `chainWebpack` / `configWebpack` mutators, when present, to
the composer sequences. -/
def initOptionFns (s : Service) (c : CmdState) : CmdState :=
  let c := match s.chainWebpackOpt with
    | some f => { c with webpackChainFns := c.webpackChainFns ++ [f] }
    | none => c
  match s.configWebpackOpt with
  | some f => { c with webpackRawConfigFns := c.webpackRawConfigFns ++ [f] }
  | none => c

/-- `init(mode)` (Service.js lines 174-194): guarded by `initialized`,
it records the mode, applies every plugin once, and appends the
project options' `chainWebpack` / `configWebpack` mutators. -/
def Service.init (mode : String) (s : Service) : Except String Service :=
  if s.initialized then .ok s
  else
    match initPlugins s.plugins s.core with
    | .error m => .error m
    | .ok c => .ok { s with initialized := true, mode := some mode, core := initOptionFns s c }

/-! ### Command registration and dispatch (Service.js lines 243-302, 384-442) -/

/-- `registerCommandFlag(cmdName, flag, handler)`
(Service.js lines 243-256): `Object.assign` the flag spec into the
aggregated flag object and push the pre-handler, both keyed by
`getCommandName(cmdName)`. -/
def Service.registerCommandFlag (s : Service) (cmdName : String)
    (flag : List (String × JVal)) (h : JVal → JSVal) : Service :=
  let key := getCommandName cmdName
  let flags := objAssign ((getA key s.core.registeredCommandFlags).getD []) flag
  let handlers := (getA key s.core.registeredCommandHandlers).getD [] ++ [some h]
  { s with core := { s.core with
      registeredCommandFlags := setA key flags s.core.registeredCommandFlags
      registeredCommandHandlers := setA key handlers s.core.registeredCommandHandlers } }

/-- The `yargsModule` second argument of `registerCommand`: a bare
handler function or a module object. -/
inductive YModule where
  | fnH (h : Nat)
  | modY (describe description desc : Option String)
      (builder : Option (List (String × JVal)))
      (handler : Option Nat) (aliases : Option String) (extend_ : Option String)

/-- The argument shapes accepted by `registerCommand(name, yargsModule)`:
a full descriptor object, or a command string plus a module. -/
inductive CmdArg where
  | objA (command : String) (describe description desc : Option String)
      (builder : Option (List (String × JVal)))
      (handler : Option Nat) (aliases : Option String) (extend_ : Option String)
  | strMod (name : String) (m : YModule)

/-- The command string a `registerCommand` argument carries. -/
def CmdArg.commandStr : CmdArg → String
  | .objA c _ _ _ _ _ _ _ => c
  | .strMod n _ => n

/-- JS `a || b` on the optional string fields of a descriptor
(`describe || description || desc`); absent fields are `none`. -/
def jsOr (a b : Option String) : Option String :=
  match a with
  | some x => some x
  | none => b

/-- The descriptor `registerCommand` stores (Service.js lines 261-300).
`handler := none` models the default empty-handler warning installed
when no handler function was supplied; `builder := []` models the `{}`
fallback.  In the string-plus-module branch the code reads
`extend = name.extend` off the *string* `name` (line 281), which is
always `undefined` — modelled faithfully as `none`. -/
def CmdArg.descriptor : CmdArg → CmdDescriptor
  | .objA c d1 d2 d3 b h al ex =>
    { command := c, handler := h, aliases := al, extend_ := ex
      describe := jsOr (jsOr d1 d2) d3, builder := b.getD [] }
  | .strMod n (.fnH h) =>
    { command := n, handler := some h, aliases := none, extend_ := none
      describe := none, builder := [] }
  | .strMod n (.modY d1 d2 d3 b h al _ex) =>
    { command := n, handler := h, aliases := al, extend_ := none
      describe := jsOr (jsOr d1 d2) d3, builder := b.getD [] }

/-- `registerCommand(name, yargsModule)` (Service.js lines 257-302):
store the descriptor under `getCommandName(command)`, replacing any
previous entry; the flag and pre-handler maps are untouched. -/
def Service.registerCommand (s : Service) (a : CmdArg) : Service :=
  let d := a.descriptor
  { s with core := { s.core with
      registeredCommands := setA (getCommandName d.command) d s.core.registeredCommands } }

/-- The pre-handler loop of the composed dispatch handler
(Service.js lines 403-426): walk the handlers, skipping non-function
entries, tracking `doit`; a handler returning exactly `false` breaks
the loop.  Returns the indices invoked (in order) and the final
`doit`. -/
def handlerLoop : List (Option (JVal → JSVal)) → JVal → Nat → JSVal → List Nat × JSVal
  | [], _, _, doit => ([], doit)
  | none :: rest, a, i, doit => handlerLoop rest a (i + 1) doit
  | some h :: rest, a, i, _ =>
    let r := h a
    if r = .vFalse then ([i], r)
    else
      let p := handlerLoop rest a (i + 1) r
      (i :: p.1, p.2)

/-- The observable outcome of one dispatch: the builder handed to the
CLI parser, the indices of the pre-handlers that ran, whether the
command's own handler ran (`doit !== false`), and which handler that
is. -/
structure RunResult where
  builder : List (String × JVal)
  invoked : List Nat
  mainRan : Bool
  mainHandler : Option Nat

/-- `runCommand(cmd, rawArgs)` lines 384-442, together with the later
invocation (by `cli.parse`, an external collaborator) of the handler
composed at lines 403-427 on the parsed `argv`.  An unknown command
logs and returns with the state unchanged.  `Object.assign(flags,
oFlags)` mutates the very object stored in `registeredCommandFlags`
when that map has an entry for `cmd`; the state update makes that
mutation explicit. -/
def Service.runCommand (s : Service) (cmd : String) (argv : JVal) :
    Option RunResult × Service :=
  match getA cmd s.core.registeredCommands with
  | none => (none, s)
  | some d =>
    let flagsE := getA cmd s.core.registeredCommandFlags
    let handlers := (getA cmd s.core.registeredCommandHandlers).getD []
    let builder := objAssign (flagsE.getD []) d.builder
    let core' := match flagsE with
      | some _ => { s.core with
          registeredCommandFlags := setA cmd builder s.core.registeredCommandFlags }
      | none => s.core
    let p := handlerLoop handlers argv 0 .vTrue
    (some { builder := builder, invoked := p.1
            mainRan := p.2 != .vFalse, mainHandler := d.handler },
     { s with core := core' })

/-! ### Webpack configuration getters (Service.js lines 502-550) -/

/-- `getWebpackChainConfig()` (lines 502-507): instantiate a fresh
chainable config (opaque, modelled as `0`) and apply every chain
mutator in order.  The method performs no initialization check; the
`Except` result records that no error is thrown. -/
def Service.getWebpackChainConfigE (s : Service) : Except String Nat :=
  .ok (s.core.webpackChainFns.foldl (fun c f => f c) 0)

/-- `getWebpackConfig(chainableConfig)` (lines 509-550): the default
argument builds the chain config first, then an uninitialized service
throws an `SError`; otherwise the raw mutators are folded over the
finalized config with `webpackMerge` (external, passed in as `wm`).
The trailing dev-server merge and middleware wrapping (lines 533-548)
act on external collaborators and are not modelled. -/
def Service.getWebpackConfigE (wm : Nat → Nat → Nat) (s : Service) : Except String Nat :=
  let chain := (Service.getWebpackChainConfigE s).toOption.getD 0
  if !s.initialized then
    .error "Service must call init() before calling getWebpackConfig()."
  else
    .ok (s.core.webpackRawConfigFns.foldl
      (fun cfg e =>
        match e with
        | .fnR f => match f cfg with | some res => wm cfg res | none => cfg
        | .litR v => wm cfg v)
      chain)

/-! ### Auxiliary definitions for the statements and concrete instances -/

/-- Indices (from `i`) of the function entries of a pre-handler list:
the positions the dispatch loop invokes when nothing short-circuits. -/
def fnIdxFrom : List (Option (JVal → JSVal)) → Nat → List Nat
  | [], _ => []
  | none :: r, i => fnIdxFrom r (i + 1)
  | some _ :: r, i => i :: fnIdxFrom r (i + 1)

/-- No two adjacent whitespace characters (the shape of `collapse`
output). -/
def noAdj : List Char → Bool
  | [] => true
  | [_] => true
  | a :: b :: r => !(isWS a && isWS b) && noAdj (b :: r)

/-- The head, if any, is not whitespace. -/
def headNotWS : List Char → Bool
  | [] => true
  | c :: _ => !isWS c

/-- Every whitespace character of the list is a non-split position for
the lookahead (its remainder satisfies `matchLA`); on such lists
`firstTok` is the identity. -/
def allKept : List Char → Bool
  | [] => true
  | c :: r => (!isWS c || matchLA r) && allKept r

/-- A freshly constructed `Service` with no plugins: empty registries,
not yet initialized (Service.js lines 34-55). -/
def emptySvc : Service :=
  { initialized := false
    mode := none
    plugins := []
    core := emptyCmdState
    chainWebpackOpt := none
    configWebpackOpt := none
    initProjectOptions := .obj [] }

/-- A module environment in which every `require` throws. -/
def envNone : String → Option JSModVal := fun _ => none

/-- A concrete valid plugin effect: it registers one dev-server
middleware, so that whether it was applied is observable. -/
def goodApply : CmdState → CmdState := fun st =>
  { st with devServerMiddlewares := st.devServerMiddlewares ++ [7] }

/-- A concrete valid plugin record. -/
def goodRec : PluginRec := { id := "good", apply := goodApply }

/-- Specifiers for C3's failing input: an invalid (non-object,
non-string) specifier followed by a valid plugin object. -/
def c3Specs : List PSpec :=
  [.plain (.nonObj 0), .plain (.pobj (some "good") (some goodApply) 0)]

/-- The service constructed from `new Service(cwd, {plugins: [42,
goodPlugin], useBuiltInPlugin: false})`. -/
def c3Service : Service :=
  { emptySvc with plugins := resolvePlugins envNone c3Specs false }

/-- The same service without the failing specifier. -/
def c3GoodOnly : Service :=
  { emptySvc with plugins := resolvePlugins envNone [.plain (.pobj (some "good") (some goodApply) 0)] false }

/-- The state `c3GoodOnly.init` reaches: initialized, with the good
plugin's middleware registered. -/
def c3GoodAfter : Service :=
  { c3GoodOnly with
    initialized := true
    mode := some "production"
    core := { emptyCmdState with devServerMiddlewares := [7] } }

/-- A concrete chain mutator (for the C7 witness). -/
def chainFn7 : Nat → Nat := fun n => n + 1

/-- A concrete service for the C7 witness: one valid plugin and a
`chainWebpack` project option. -/
def svcC7 : Service :=
  { emptySvc with
    plugins := [some (goodRec, none)]
    chainWebpackOpt := some chainFn7 }

/-- The state `svcC7.init "development"` reaches. -/
def svcC7After : Service :=
  { svcC7 with
    initialized := true
    mode := some "development"
    core := { emptyCmdState with devServerMiddlewares := [7], webpackChainFns := [chainFn7] } }

/-- A pre-handler that always returns `true` (never vetoes). -/
def hTrue : JVal → JSVal := fun _ => .vTrue

/-- The C2 counterexample service: one aggregated flag `p` (spec `1`)
for `serve`, then a `serve` descriptor whose builder also declares `p`
(spec `2`). -/
def svcC2 : Service :=
  (emptySvc.registerCommandFlag "serve" [("p", .num 1)] hTrue).registerCommand
    (.strMod "serve" (.modY none none none (some [("p", .num 2)]) (some 9) none none))

/-- The descriptor the C2 registration stores for `serve`. -/
def dC2 : CmdDescriptor :=
  { command := "serve", handler := some 9, aliases := none, extend_ := none
    describe := none, builder := [("p", JVal.num 2)] }

/-- A service with one never-vetoing pre-handler and a `serve` command
(for the C6 witness). -/
def svcC6 : Service :=
  (emptySvc.registerCommandFlag "serve" [] hTrue).registerCommand (.strMod "serve" (.fnH 5))

/-- The descriptor stored for `serve` in `svcC6`. -/
def dC6 : CmdDescriptor :=
  { command := "serve", handler := some 5, aliases := none, extend_ := none
    describe := none, builder := [] }

/-- First registration argument of the C5 witness scenario. -/
def a1C5 : CmdArg := .strMod "serve" (.fnH 1)

/-- Second registration argument of the C5 witness scenario. -/
def a2C5 : CmdArg := .strMod "serve" (.fnH 2)

/-! ### Lemmas: association lists and the deep-defaults merge -/

theorem getA_setA {α : Type} (k k₀ : String) (v : α) (l : List (String × α)) :
    getA k (setA k₀ v l) = if k₀ = k then some v else getA k l := by
  induction l with
  | nil => simp [setA, getA]
  | cons kv r ih =>
    obtain ⟨k', v'⟩ := kv
    simp only [setA]
    by_cases h : k' = k₀
    · subst h
      simp only [if_pos rfl, getA]
      by_cases hk : k' = k <;> simp [hk]
    · simp only [if_neg h, getA, ih]
      by_cases hk : k' = k
      · subst hk
        have hne : k' ≠ k₀ := h
        have hne' : ¬k₀ = k' := fun hh => hne hh.symm
        simp [hne']
      · simp [hk]

theorem getA_eraseKey {α : Type} (k k₀ : String) (l : List (String × α)) (h : k₀ ≠ k) :
    getA k (eraseKey k₀ l) = getA k l := by
  induction l with
  | nil => simp [eraseKey]
  | cons kv r ih =>
    obtain ⟨k', v'⟩ := kv
    simp only [eraseKey]
    by_cases h1 : k' = k₀
    · subst h1
      have hne : ¬k' = k := h
      simp [getA, hne, ih]
    · simp only [if_neg h1, getA, ih]

theorem getA_eq_none {α : Type} (k : String) (s : List (String × α))
    (h : k ∉ s.map Prod.fst) : getA k s = none := by
  induction s with
  | nil => rfl
  | cons kv s ih =>
    obtain ⟨k', v'⟩ := kv
    simp only [List.map_cons, List.mem_cons, not_or] at h
    have hne : k' ≠ k := fun hh => h.1 hh.symm
    simp [getA, hne, ih h.2]

theorem getA_objAssign {α : Type} (k : String) (s : List (String × α)) :
    ∀ t : List (String × α), (s.map Prod.fst).Nodup →
      getA k (objAssign t s) = firstSome (getA k s) (getA k t) := by
  induction s with
  | nil => intro t _; simp [objAssign, getA, firstSome]
  | cons kv s ih =>
    intro t hnd
    obtain ⟨k₀, v₀⟩ := kv
    simp only [List.map_cons, List.nodup_cons] at hnd
    have step : objAssign t ((k₀, v₀) :: s) = objAssign (setA k₀ v₀ t) s := rfl
    rw [step, ih _ hnd.2]
    by_cases hk : k₀ = k
    · subst hk
      have hnone : getA k₀ s = none := getA_eq_none k₀ s hnd.1
      simp [getA, hnone, getA_setA, firstSome]
    · simp only [getA, if_neg hk]
      cases hs : getA k s with
      | some v => simp [firstSome]
      | none => simp [firstSome, getA_setA, if_neg hk]

theorem ddeep_of_not_obj (d s : JVal) (h : ∀ sf, s ≠ .obj sf) : ddeep d s = d := by
  cases d with
  | obj df =>
    cases s with
    | obj sf => exact absurd rfl (h sf)
    | str a => simp [ddeep]
    | num n => simp [ddeep]
  | str a => simp [ddeep]
  | num n => simp [ddeep]

theorem ddeep_str (a : String) (s : JVal) : ddeep (.str a) s = .str a := by
  simp [ddeep]

theorem getA_ddFields (k : String) :
    ∀ (df sf : List (String × JVal)),
      getA k (ddFields df sf)
        = match getA k df with
          | some fv => some (match getA k sf with
                             | some sv => ddeep fv sv
                             | none => fv)
          | none => getA k sf := by
  intro df
  induction df with
  | nil => intro sf; simp [ddFields, getA]
  | cons kv df ih =>
    intro sf
    obtain ⟨k₀, v₀⟩ := kv
    by_cases hk : k₀ = k
    · subst hk
      simp [ddFields, getA]
    · simp only [ddFields, getA, if_neg hk, ih, getA_eraseKey k k₀ sf hk]

/-! ### Lemmas: the dispatch pre-handler loop -/

theorem handlerLoop_no_false (a : JVal) :
    ∀ (hs : List (Option (JVal → JSVal))) (i : Nat) (d : JSVal),
      d ≠ .vFalse → (∀ g : JVal → JSVal, some g ∈ hs → g a ≠ .vFalse) →
      ∃ d', handlerLoop hs a i d = (fnIdxFrom hs i, d') ∧ d' ≠ .vFalse := by
  intro hs
  induction hs with
  | nil => intro i d hd _; exact ⟨d, rfl, hd⟩
  | cons e hs ih =>
    intro i d hd hall
    cases e with
    | none =>
      obtain ⟨d', h1, h2⟩ := ih (i + 1) d hd (fun g hg => hall g (List.mem_cons_of_mem _ hg))
      exact ⟨d', by simpa [handlerLoop, fnIdxFrom] using h1, h2⟩
    | some h =>
      have hne : h a ≠ .vFalse := hall h (List.mem_cons_self _ _)
      obtain ⟨d', h1, h2⟩ := ih (i + 1) (h a) hne (fun g hg => hall g (List.mem_cons_of_mem _ hg))
      refine ⟨d', ?_, h2⟩
      simp only [handlerLoop, fnIdxFrom, if_neg hne, h1]

theorem handlerLoop_first_false (a : JVal) (f : JVal → JSVal)
    (post : List (Option (JVal → JSVal))) (hf : f a = .vFalse) :
    ∀ (pre : List (Option (JVal → JSVal))) (i : Nat) (d : JSVal),
      (∀ g : JVal → JSVal, some g ∈ pre → g a ≠ .vFalse) →
      handlerLoop (pre ++ some f :: post) a i d
        = (fnIdxFrom pre i ++ [i + pre.length], .vFalse) := by
  intro pre
  induction pre with
  | nil =>
    intro i d _
    simp [handlerLoop, hf, fnIdxFrom]
  | cons e pre ih =>
    intro i d hall
    have harith : i + 1 + pre.length = i + (pre.length + 1) := by omega
    cases e with
    | none =>
      have hrec := ih (i + 1) d (fun g hg => hall g (List.mem_cons_of_mem _ hg))
      simp only [List.cons_append, handlerLoop, List.append_eq, fnIdxFrom, List.length_cons]
      rw [hrec, harith]
    | some h =>
      have hne : h a ≠ .vFalse := hall h (List.mem_cons_self _ _)
      have hrec := ih (i + 1) (h a) (fun g hg => hall g (List.mem_cons_of_mem _ hg))
      simp only [List.cons_append, handlerLoop, List.append_eq, fnIdxFrom, if_neg hne,
        List.length_cons]
      rw [hrec, harith]

/-! ### Lemmas: `getCommandName` -/

theorem laOne_allWS (cl op : Char) (hcl : isWS cl = false) (hop : isWS op = false) :
    ∀ w : List Char, (∀ c ∈ w, isWS c = true) → laOne cl op w = false := by
  intro w
  induction w with
  | nil => intro _; rfl
  | cons c w ih =>
    intro hw
    have hc : isWS c = true := hw c (List.mem_cons_self _ _)
    have h1 : ¬c = cl := by intro h; rw [h, hcl] at hc; cases hc
    have h2 : ¬c = op := by intro h; rw [h, hop] at hc; cases hc
    simp [laOne, h1, h2, ih (fun c hm => hw c (List.mem_cons_of_mem _ hm))]

theorem laOne_append_allWS (cl op : Char) (hcl : isWS cl = false) (hop : isWS op = false)
    (w : List Char) (hw : ∀ c ∈ w, isWS c = true) :
    ∀ l : List Char, laOne cl op (l ++ w) = laOne cl op l := by
  intro l
  induction l with
  | nil => simp [laOne, laOne_allWS cl op hcl hop w hw]
  | cons c l ih =>
    by_cases h1 : c = cl
    · simp [laOne, h1]
    · by_cases h2 : c = op
      · simp [laOne, h1, h2]
      · simp [laOne, h1, h2, ih]

theorem matchLA_append_allWS (w : List Char) (hw : ∀ c ∈ w, isWS c = true)
    (l : List Char) : matchLA (l ++ w) = matchLA l := by
  simp [matchLA, laOne_append_allWS ']' '[' (by decide) (by decide) w hw l,
    laOne_append_allWS '>' '<' (by decide) (by decide) w hw l]

theorem allKept_append_allWS (w : List Char) (hw : ∀ c ∈ w, isWS c = true) :
    ∀ l : List Char, allKept (l ++ w) = true → allKept l = true := by
  intro l
  induction l with
  | nil => intro _; rfl
  | cons c l ih =>
    intro h
    simp only [List.cons_append, List.append_eq, allKept, Bool.and_eq_true] at h ⊢
    rw [matchLA_append_allWS w hw l] at h
    exact ⟨h.1, ih h.2⟩

theorem allKept_dropWhile : ∀ l : List Char, allKept l = true →
    allKept (List.dropWhile isWS l) = true := by
  intro l
  induction l with
  | nil => intro _; rfl
  | cons c l ih =>
    intro h
    simp only [allKept, Bool.and_eq_true] at h
    cases hc : isWS c with
    | true => simp only [List.dropWhile_cons, hc, if_pos rfl]; exact ih h.2
    | false =>
      simp only [List.dropWhile_cons, hc]
      simp only [allKept, Bool.and_eq_true]
      exact h

theorem rstrip_decomp (l : List Char) :
    ∃ w, rstrip l ++ w = l ∧ ∀ c ∈ w, isWS c = true := by
  refine ⟨(l.reverse.takeWhile isWS).reverse, ?_, ?_⟩
  · rw [rstrip, ← List.reverse_append, List.takeWhile_append_dropWhile, List.reverse_reverse]
  · intro c hc
    rw [List.mem_reverse] at hc
    exact List.mem_takeWhile_imp hc

theorem allKept_rstrip (l : List Char) (h : allKept l = true) :
    allKept (rstrip l) = true := by
  obtain ⟨w, hw1, hw2⟩ := rstrip_decomp l
  exact allKept_append_allWS w hw2 (rstrip l) (by rw [hw1]; exact h)

theorem laOne_firstTok (cl op : Char) (hcl : isWS cl = false)
    (hmono : ∀ t, laOne cl op t = true → matchLA t = true) :
    ∀ r, laOne cl op r = true → laOne cl op (firstTok r) = true := by
  intro r
  induction r with
  | nil => intro h; cases h
  | cons c rest ih =>
    intro h
    by_cases h1 : c = cl
    · subst h1
      have hstep : firstTok (c :: rest) = c :: firstTok rest := by simp [firstTok, hcl]
      rw [hstep]
      simp [laOne]
    · by_cases h2 : c = op
      · rw [laOne, if_neg h1, if_pos h2] at h
        cases h
      · have h' : laOne cl op rest = true := by
          rw [laOne, if_neg h1, if_neg h2] at h
          exact h
        have hm : matchLA rest = true := hmono rest h'
        have hstep : firstTok (c :: rest) = c :: firstTok rest := by simp [firstTok, hm]
        rw [hstep]
        simp [laOne, h1, h2, ih h']

theorem matchLA_firstTok (r : List Char) (h : matchLA r = true) :
    matchLA (firstTok r) = true := by
  rw [matchLA, Bool.or_eq_true] at h
  cases h with
  | inl h =>
    have := laOne_firstTok ']' '[' (by decide) (fun t ht => by simp [matchLA, ht]) r h
    simp [matchLA, this]
  | inr h =>
    have := laOne_firstTok '>' '<' (by decide) (fun t ht => by simp [matchLA, ht]) r h
    simp [matchLA, this]

theorem allKept_firstTok : ∀ v : List Char, allKept (firstTok v) = true := by
  intro v
  induction v with
  | nil => rfl
  | cons c r ih =>
    cases h1 : isWS c with
    | false =>
      have hstep : firstTok (c :: r) = c :: firstTok r := by simp [firstTok, h1]
      rw [hstep]
      simp [allKept, h1, ih]
    | true =>
      cases h2 : matchLA r with
      | false => simp [firstTok, h1, h2, allKept]
      | true =>
        have hstep : firstTok (c :: r) = c :: firstTok r := by simp [firstTok, h1, h2]
        rw [hstep]
        simp [allKept, h1, matchLA_firstTok r h2, ih]

theorem firstTok_eq_self_of_allKept : ∀ l : List Char, allKept l = true → firstTok l = l := by
  intro l
  induction l with
  | nil => intro _; rfl
  | cons c r ih =>
    intro h
    simp only [allKept, Bool.and_eq_true] at h
    cases h1 : isWS c with
    | false => simp [firstTok, h1, ih h.2]
    | true =>
      have hm : matchLA r = true := by
        have h11 := h.1
        rw [h1] at h11
        simpa using h11
      simp [firstTok, h1, hm, ih h.2]

theorem firstTok_front : ∀ l : List Char, ∃ t, firstTok l ++ t = l := by
  intro l
  induction l with
  | nil => exact ⟨[], rfl⟩
  | cons c r ih =>
    by_cases hc : (isWS c && !matchLA r) = true
    · exact ⟨c :: r, by simp [firstTok, hc]⟩
    · obtain ⟨t, ht⟩ := ih
      exact ⟨t, by simp [firstTok, hc, ht]⟩

theorem noAdj_tail (c : Char) (l : List Char) (h : noAdj (c :: l) = true) :
    noAdj l = true := by
  cases l with
  | nil => rfl
  | cons b r =>
    simp only [noAdj, Bool.and_eq_true] at h
    exact h.2

theorem noAdj_append_left : ∀ l m : List Char, noAdj (l ++ m) = true → noAdj l = true := by
  intro l m
  induction l with
  | nil => intro _; rfl
  | cons a l ih =>
    intro h
    cases l with
    | nil => rfl
    | cons b l' =>
      simp only [List.cons_append, noAdj, Bool.and_eq_true] at h
      simp only [noAdj, Bool.and_eq_true]
      exact ⟨h.1, ih (by simpa using h.2)⟩

theorem noAdj_back : ∀ l m : List Char, noAdj (l ++ m) = true → noAdj m = true := by
  intro l m
  induction l with
  | nil => intro h; exact h
  | cons a l ih =>
    intro h
    exact ih (noAdj_tail a _ (by simpa using h))

theorem noAdj_front (x y : List Char) (hf : ∃ t, x ++ t = y) (h : noAdj y = true) :
    noAdj x = true := by
  obtain ⟨t, rfl⟩ := hf
  exact noAdj_append_left x t h

theorem noAdj_cons (c : Char) (l : List Char)
    (h : isWS c = false ∨ headNotWS l = true) (hl : noAdj l = true) :
    noAdj (c :: l) = true := by
  cases l with
  | nil => rfl
  | cons x xs =>
    simp only [noAdj, Bool.and_eq_true]
    refine ⟨?_, hl⟩
    cases h with
    | inl ha => simp [ha]
    | inr hb =>
      have hx : isWS x = false := by
        simp only [headNotWS, Bool.not_eq_true'] at hb
        exact hb
      simp [hx]

theorem headNotWS_collapse : ∀ m : List Char, headNotWS m = true →
    headNotWS (collapse m) = true := by
  intro m hm
  match m with
  | [] => simpa [collapse] using hm
  | [c] => simpa [collapse] using hm
  | a :: b :: r =>
    have ha : isWS a = false := by
      simp only [headNotWS, Bool.not_eq_true'] at hm
      exact hm
    have hcond : (isWS a && isWS b) = false := by simp [ha]
    simp [collapse, hcond, headNotWS, ha]

theorem noAdj_collapse : ∀ l : List Char, noAdj (collapse l) = true := by
  intro l
  induction l using collapse.induct with
  | case1 => simp [collapse, noAdj]
  | case2 c => simp [collapse, noAdj]
  | case3 a b r h ih =>
    rw [show collapse (a :: b :: r) = collapse (' ' :: r) from by simp [collapse, h]]
    exact ih
  | case4 a b r h ih =>
    have hcond : (isWS a && isWS b) = false := by
      revert h
      cases isWS a && isWS b <;> simp
    rw [show collapse (a :: b :: r) = a :: collapse (b :: r) from by simp [collapse, hcond]]
    refine noAdj_cons a _ ?_ ih
    cases ha : isWS a with
    | false => exact Or.inl rfl
    | true =>
      have hb : isWS b = false := by
        rw [ha] at hcond
        simpa using hcond
      exact Or.inr (headNotWS_collapse (b :: r) (by simp [headNotWS, hb]))

theorem collapse_eq_self_of_noAdj : ∀ l : List Char, noAdj l = true → collapse l = l := by
  intro l
  induction l using collapse.induct with
  | case1 => intro _; simp [collapse]
  | case2 c => intro _; simp [collapse]
  | case3 a b r h ih =>
    intro hn
    simp only [noAdj, Bool.and_eq_true, h, Bool.not_true] at hn
    cases hn.1
  | case4 a b r h ih =>
    intro hn
    have hcond : (isWS a && isWS b) = false := by
      revert h
      cases isWS a && isWS b <;> simp
    rw [show collapse (a :: b :: r) = a :: collapse (b :: r) from by simp [collapse, hcond]]
    rw [ih (noAdj_tail a _ hn)]

theorem headNotWS_dropWhile : ∀ l : List Char, headNotWS (List.dropWhile isWS l) = true := by
  intro l
  induction l with
  | nil => rfl
  | cons c l ih =>
    cases hc : isWS c with
    | true => simp only [List.dropWhile_cons, hc, if_pos rfl]; exact ih
    | false => simp [List.dropWhile_cons, hc, headNotWS]

theorem headNotWS_of_front (x y : List Char) (hf : ∃ t, x ++ t = y)
    (h : headNotWS y = true) : headNotWS x = true := by
  cases x with
  | nil => rfl
  | cons c x' =>
    obtain ⟨t, rfl⟩ := hf
    simpa [headNotWS] using h

theorem lstrip_eq_self_of_head (l : List Char) (h : headNotWS l = true) :
    lstrip l = l := by
  cases l with
  | nil => rfl
  | cons c r =>
    have hc : isWS c = false := by
      simp only [headNotWS, Bool.not_eq_true'] at h
      exact h
    simp [lstrip, List.dropWhile_cons, hc]

theorem rstrip_eq_self_of_rev (l : List Char) (h : headNotWS l.reverse = true) :
    rstrip l = l := by
  rw [rstrip, show l.reverse.dropWhile isWS = l.reverse from lstrip_eq_self_of_head l.reverse h,
    List.reverse_reverse]

theorem gcnL_idem (l : List Char) : gcnL (gcnL l) = gcnL l := by
  have hnadj_v : noAdj (collapse l) = true := noAdj_collapse l
  have hfront_u : ∃ tt, firstTok (collapse l) ++ tt = collapse l := firstTok_front (collapse l)
  have hnadj_u : noAdj (firstTok (collapse l)) = true := noAdj_front _ _ hfront_u hnadj_v
  have hback_ls : ∃ p, p ++ lstrip (firstTok (collapse l)) = firstTok (collapse l) :=
    ⟨(firstTok (collapse l)).takeWhile isWS, by
      rw [lstrip]
      exact List.takeWhile_append_dropWhile isWS (firstTok (collapse l))⟩
  have hnadj_ls : noAdj (lstrip (firstTok (collapse l))) = true := by
    obtain ⟨p, hp⟩ := hback_ls
    exact noAdj_back p _ (by rw [hp]; exact hnadj_u)
  have hfront_t : ∃ w, trimWS (firstTok (collapse l)) ++ w = lstrip (firstTok (collapse l)) := by
    obtain ⟨w, hw1, _⟩ := rstrip_decomp (lstrip (firstTok (collapse l)))
    exact ⟨w, hw1⟩
  have hnadj_t : noAdj (trimWS (firstTok (collapse l))) = true :=
    noAdj_front _ _ hfront_t hnadj_ls
  have hcol : collapse (trimWS (firstTok (collapse l))) = trimWS (firstTok (collapse l)) :=
    collapse_eq_self_of_noAdj _ hnadj_t
  have hak_u : allKept (firstTok (collapse l)) = true := allKept_firstTok (collapse l)
  have hak_ls : allKept (lstrip (firstTok (collapse l))) = true :=
    allKept_dropWhile _ hak_u
  have hak_t : allKept (trimWS (firstTok (collapse l))) = true :=
    allKept_rstrip _ hak_ls
  have hft : firstTok (trimWS (firstTok (collapse l))) = trimWS (firstTok (collapse l)) :=
    firstTok_eq_self_of_allKept _ hak_t
  have hhead_ls : headNotWS (lstrip (firstTok (collapse l))) = true :=
    headNotWS_dropWhile _
  have hhead_t : headNotWS (trimWS (firstTok (collapse l))) = true :=
    headNotWS_of_front _ _ hfront_t hhead_ls
  have hls_t : lstrip (trimWS (firstTok (collapse l))) = trimWS (firstTok (collapse l)) :=
    lstrip_eq_self_of_head _ hhead_t
  have hrev : headNotWS (trimWS (firstTok (collapse l))).reverse = true := by
    rw [show (trimWS (firstTok (collapse l))).reverse
        = (lstrip (firstTok (collapse l))).reverse.dropWhile isWS from by
      rw [trimWS, rstrip, List.reverse_reverse]]
    exact headNotWS_dropWhile _
  have hrs_t : rstrip (trimWS (firstTok (collapse l))) = trimWS (firstTok (collapse l)) :=
    rstrip_eq_self_of_rev _ hrev
  show trimWS (firstTok (collapse (trimWS (firstTok (collapse l)))))
      = trimWS (firstTok (collapse l))
  rw [hcol, hft, trimWS, hls_t, hrs_t]

/-! ### Helper lemmas for the claim theorems -/

theorem descriptor_command (a : CmdArg) : a.descriptor.command = a.commandStr := by
  cases a with
  | objA c d1 d2 d3 b h al ex => rfl
  | strMod n m => cases m <;> rfl

theorem gcn_serve : getCommandName "serve" = "serve" := by
  simp [getCommandName, gcnL, collapse, firstTok, trimWS, lstrip, rstrip, isWS, matchLA, laOne]

theorem init_initialized (m : String) (s s' : Service)
    (h : Service.init m s = .ok s') : s'.initialized = true := by
  unfold Service.init at h
  by_cases hi : s.initialized
  · rw [if_pos hi] at h
    injection h with h'
    rw [← h']
    exact hi
  · rw [if_neg hi] at h
    cases hp : initPlugins s.plugins s.core with
    | error e => rw [hp] at h; cases h
    | ok c => rw [hp] at h; injection h with h'; rw [← h']

/-! ### Claim theorems -/

/-- C10: `getCommandName` is idempotent — re-extracting the name of an
already-extracted command name is the identity — and consequently
`registerCommandFlag` (which keys its maps through `getCommandName`,
as `registerCommand` does) stores a full command string and its
already-extracted name under the same key, producing identical
states. -/
theorem C10_getCommandName_idempotent :
    (∀ s : String, getCommandName (getCommandName s) = getCommandName s)
    ∧ (∀ (svc : Service) (n : String) (flag : List (String × JVal)) (h : JVal → JSVal),
        svc.registerCommandFlag (getCommandName n) flag h
          = svc.registerCommandFlag n flag h) := by
  have hid : ∀ s : String, getCommandName (getCommandName s) = getCommandName s := by
    intro s
    show String.mk (gcnL (String.mk (gcnL s.data)).data) = String.mk (gcnL s.data)
    rw [show (String.mk (gcnL s.data)).data = gcnL s.data from rfl, gcnL_idem]
  refine ⟨hid, ?_⟩
  intro svc n flag h
  simp only [Service.registerCommandFlag, hid n]

/-- C7: initialization is idempotent — once `init` has returned a
service, a second `init` with any mode is a no-op returning that very
state (`initialized` guards the whole body, so plugins are not
re-applied, the mutator sequences are not extended, and the stored
mode is unchanged). -/
theorem C7_init_idempotent (m m' : String) (s s' : Service)
    (h : Service.init m s = .ok s') : Service.init m' s' = .ok s' := by
  have hi : s'.initialized = true := init_initialized m s s' h
  unfold Service.init
  rw [if_pos hi]

/-- C7 witness: a concrete service with one plugin and a `chainWebpack`
option initializes to `svcC7After`, and a second `init` (with a
different mode) returns `svcC7After` unchanged. -/
theorem C7_init_idempotent_witness :
    Service.init "development" svcC7 = .ok svcC7After
    ∧ Service.init "production" svcC7After = .ok svcC7After :=
  ⟨rfl, C7_init_idempotent "development" "production" svcC7 svcC7After rfl⟩

/-- C4 counterexample: on a never-initialized service,
`getWebpackChainConfig` does not throw — it silently returns the
(empty) chain configuration, refuting the claim that both
configuration getters throw before initialization. -/
theorem C4_counterexample :
    emptySvc.initialized = false
    ∧ Service.getWebpackChainConfigE emptySvc = .ok 0 :=
  ⟨rfl, rfl⟩

/-- C4 amended: before initialization, `getWebpackConfig` throws the
ordering error, but `getWebpackChainConfig` performs no initialization
check and silently returns the chain built from whatever mutators are
registered (an empty configuration on a fresh service). -/
theorem C4_amended_ordering (s : Service) (wm : Nat → Nat → Nat)
    (hs : s.initialized = false) :
    Service.getWebpackConfigE wm s
        = .error "Service must call init() before calling getWebpackConfig()."
    ∧ Service.getWebpackChainConfigE s
        = .ok (s.core.webpackChainFns.foldl (fun c f => f c) 0) := by
  constructor
  · unfold Service.getWebpackConfigE
    rw [hs]
    rfl
  · rfl

/-- C4 amended witness: instantiated on a fresh service. -/
theorem C4_amended_ordering_witness :
    Service.getWebpackConfigE (fun a _ => a) emptySvc
        = .error "Service must call init() before calling getWebpackConfig()." :=
  (C4_amended_ordering emptySvc (fun a _ => a) rfl).1

/-- C1 counterexample: for the key `outputDir` present in both the
config file's object and the constructor-supplied options,
`loadProjectOptions` produces the *file's* value, not the
constructor-supplied one — refuting the claimed constructor-over-file
precedence. -/
theorem C1_counterexample :
    topField "outputDir"
        (loadProjectOptions (JVal.obj [("outputDir", JVal.str "fromctor")])
          (some (JVal.obj [("outputDir", JVal.str "fromfile")])))
      = some (JVal.str "fromfile")
    ∧ JVal.str "fromfile" ≠ JVal.str "fromctor" := by
  constructor
  · simp [loadProjectOptions, mergedProjectOptions, defaultConfig, ddeep, ddFields, getA,
      eraseKey, normalizeConfig, topField, setA, removeSlashVal, stripDotSlashVal,
      ensureSlashVal, jsTestHttp, addLeadSlash, addTrailSlash]
  · intro h
    injection h with h'
    exact absurd h' (by decide)

/-- C1 amended: in the merged project options, a key present in the
config file keeps the file's value (merged with file precedence — a
string-valued file entry is taken outright, whatever the constructor
options and defaults say); a key absent from the file but present in
the constructor options keeps the constructor value over the defaults
in the same way. -/
theorem C1_amended_precedence (ctf ff : List (String × JVal)) (k : String) :
    (∀ fv, getA k ff = some fv →
      ∃ w, topField k (mergedProjectOptions (JVal.obj ctf) (some (JVal.obj ff)))
          = some (ddeep fv w))
    ∧ (∀ cv, getA k ff = none → getA k ctf = some cv →
      ∃ w, topField k (mergedProjectOptions (JVal.obj ctf) (some (JVal.obj ff)))
          = some (ddeep cv w))
    ∧ (∀ (a : String) (w : JVal), ddeep (JVal.str a) w = JVal.str a) := by
  have hstr : ∀ (fv : JVal), ddeep fv (JVal.num 0) = fv := by
    intro fv
    cases fv <;> simp [ddeep]
  have hmerge : mergedProjectOptions (JVal.obj ctf) (some (JVal.obj ff))
      = JVal.obj (ddFields ff (ddFields ctf
          [("publicPath", JVal.str ""), ("outputDir", JVal.str "dist")])) := by
    simp [mergedProjectOptions, defaultConfig, ddeep]
  refine ⟨?_, ?_, ?_⟩
  · intro fv hfv
    rw [hmerge]
    simp only [topField]
    rw [getA_ddFields, hfv]
    cases hx : getA k (ddFields ctf
        [("publicPath", JVal.str ""), ("outputDir", JVal.str "dist")]) with
    | some sv => exact ⟨sv, rfl⟩
    | none => exact ⟨JVal.num 0, by rw [hstr fv]⟩
  · intro cv hffnone hcv
    rw [hmerge]
    simp only [topField]
    rw [getA_ddFields, hffnone, getA_ddFields, hcv]
    cases hx : getA k [("publicPath", JVal.str ""), ("outputDir", JVal.str "dist")] with
    | some dv => exact ⟨dv, rfl⟩
    | none => exact ⟨JVal.num 0, by rw [hstr cv]⟩
  · intro a w
    cases w <;> simp [ddeep]

/-- C1 amended witness: with the key `o` in both the file config and
the constructor options, the merged value is the file's string. -/
theorem C1_amended_precedence_witness :
    getA "o" [("o", JVal.str "f")] = some (JVal.str "f")
    ∧ ∃ w, topField "o" (mergedProjectOptions (JVal.obj [("o", JVal.str "c")])
          (some (JVal.obj [("o", JVal.str "f")]))) = some (ddeep (JVal.str "f") w) :=
  ⟨by simp [getA],
   (C1_amended_precedence [("o", JVal.str "c")] [("o", JVal.str "f")] "o").1
     (JVal.str "f") (by simp [getA])⟩

/-- C8: normalization postconditions — a merged configuration with the
file-provided `publicPath` `"assets"` (over the default `""`)
normalizes to `"/assets/"`, and one with the file-provided `outputDir`
`"build/"` (over the default `"dist"`) normalizes to `"build"`. -/
theorem C8_normalization :
    topField "publicPath"
        (loadProjectOptions (JVal.obj []) (some (JVal.obj [("publicPath", JVal.str "assets")])))
      = some (JVal.str "/assets/")
    ∧ topField "outputDir"
        (loadProjectOptions (JVal.obj []) (some (JVal.obj [("outputDir", JVal.str "build/")])))
      = some (JVal.str "build") := by
  constructor <;>
    simp [loadProjectOptions, mergedProjectOptions, defaultConfig, ddeep, ddFields, getA,
      eraseKey, normalizeConfig, topField, setA, removeSlashVal, stripDotSlashVal,
      ensureSlashVal, jsTestHttp, addLeadSlash, addTrailSlash]

/-- C2 counterexample: with the aggregated flag `p ↦ 1` and a `serve`
descriptor whose builder declares `p ↦ 2`, the builder handed to the
CLI parser carries the *descriptor's* spec `2` on the colliding key —
refuting the claim that the aggregated flag wins
(`Object.assign(flags, oFlags)` lets the source `oFlags` overwrite). -/
theorem C2_counterexample :
    (svcC2.runCommand "serve" (JVal.num 0)).1.map RunResult.builder
        = some [("p", JVal.num 2)]
    ∧ (svcC2.runCommand "serve" (JVal.num 0)).1.map RunResult.builder
        ≠ some [("p", JVal.num 1)] := by
  have heval : (svcC2.runCommand "serve" (JVal.num 0)).1.map RunResult.builder
      = some [("p", JVal.num 2)] := by
    simp [svcC2, Service.registerCommandFlag, Service.registerCommand, Service.runCommand,
      gcn_serve, CmdArg.descriptor, jsOr, emptySvc, emptyCmdState, getA, setA, objAssign,
      handlerLoop, hTrue]
  refine ⟨heval, ?_⟩
  rw [heval]
  intro h
  injection h with h'
  cases h'

/-- C2 amended: at dispatch, the builder handed to the CLI parser is
`Object.assign(aggregated, descriptorBuilder)` — on every colliding
flag name the *descriptor's* spec wins, and the non-colliding keys of
both sides are present (aggregated keys surviving exactly where the
descriptor's builder is silent). -/
theorem C2_amended_builder (s : Service) (cmd : String) (argv : JVal)
    (d : CmdDescriptor) (fl : List (String × JVal))
    (hd : getA cmd s.core.registeredCommands = some d)
    (hf : getA cmd s.core.registeredCommandFlags = some fl)
    (hnd : (d.builder.map Prod.fst).Nodup) :
    (s.runCommand cmd argv).1.map RunResult.builder = some (objAssign fl d.builder)
    ∧ ∀ k, getA k (objAssign fl d.builder)
        = firstSome (getA k d.builder) (getA k fl) := by
  constructor
  · simp [Service.runCommand, hd, hf]
  · intro k
    exact getA_objAssign k d.builder fl hnd

/-- C2 amended witness: instantiated on the concrete `serve` service. -/
theorem C2_amended_builder_witness :
    (svcC2.runCommand "serve" (JVal.num 0)).1.map RunResult.builder
        = some (objAssign [("p", JVal.num 1)] dC2.builder) :=
  (C2_amended_builder svcC2 "serve" (JVal.num 0) dC2 [("p", JVal.num 1)]
    (by simp [svcC2, Service.registerCommandFlag, Service.registerCommand, gcn_serve,
      CmdArg.descriptor, jsOr, emptySvc, emptyCmdState, getA, setA, dC2])
    (by simp [svcC2, Service.registerCommandFlag, Service.registerCommand, gcn_serve,
      emptySvc, emptyCmdState, getA, setA, objAssign])
    (by simp [dC2])).1

/-- C9: dispatch writes the merged builder back into the stored flag
aggregate — after `runCommand`, the entry of `registeredCommandFlags`
for the command equals `Object.assign(aggregated, descriptorBuilder)`,
so it additionally contains every key of the descriptor's builder,
with the descriptor's values on colliding keys. -/
theorem C9_dispatch_mutates_flags (s : Service) (cmd : String) (argv : JVal)
    (d : CmdDescriptor) (fl : List (String × JVal))
    (hd : getA cmd s.core.registeredCommands = some d)
    (hf : getA cmd s.core.registeredCommandFlags = some fl)
    (hne : fl ≠ [])
    (hnd : (d.builder.map Prod.fst).Nodup) :
    getA cmd ((s.runCommand cmd argv).2.core.registeredCommandFlags)
        = some (objAssign fl d.builder)
    ∧ ∀ k v, getA k d.builder = some v → getA k (objAssign fl d.builder) = some v := by
  constructor
  · simp [Service.runCommand, hd, hf, getA_setA]
  · intro k v hkv
    rw [getA_objAssign k d.builder fl hnd, hkv]
    rfl

/-- C9 witness: after one dispatch of `serve`, the stored aggregate
holds the merged builder. -/
theorem C9_dispatch_mutates_flags_witness :
    getA "serve" ((svcC2.runCommand "serve" (JVal.num 0)).2.core.registeredCommandFlags)
        = some (objAssign [("p", JVal.num 1)] dC2.builder) :=
  (C9_dispatch_mutates_flags svcC2 "serve" (JVal.num 0) dC2 [("p", JVal.num 1)]
    (by simp [svcC2, Service.registerCommandFlag, Service.registerCommand, gcn_serve,
      CmdArg.descriptor, jsOr, emptySvc, emptyCmdState, getA, setA, dC2])
    (by simp [svcC2, Service.registerCommandFlag, Service.registerCommand, gcn_serve,
      emptySvc, emptyCmdState, getA, setA, objAssign])
    (by simp)
    (by simp [dC2])).1

/-- C6: pre-handler short-circuit — the dispatch-time handler invokes
the registered pre-handlers in registration order; if none of them
returns exactly `false` they all run and the command's own handler
runs afterwards, while if one returns exactly `false` the invocations
stop with it (no later pre-handler runs) and the command's own handler
is never invoked. -/
theorem C6_short_circuit (s : Service) (cmd : String) (argv : JVal)
    (d : CmdDescriptor) (hs : List (Option (JVal → JSVal)))
    (hd : getA cmd s.core.registeredCommands = some d)
    (hh : getA cmd s.core.registeredCommandHandlers = some hs) :
    ((∀ g : JVal → JSVal, some g ∈ hs → g argv ≠ .vFalse) →
      (s.runCommand cmd argv).1.map RunResult.invoked = some (fnIdxFrom hs 0)
      ∧ (s.runCommand cmd argv).1.map RunResult.mainRan = some true)
    ∧ (∀ (pre post : List (Option (JVal → JSVal))) (f : JVal → JSVal),
        hs = pre ++ some f :: post → f argv = .vFalse →
        (∀ g : JVal → JSVal, some g ∈ pre → g argv ≠ .vFalse) →
        (s.runCommand cmd argv).1.map RunResult.invoked
            = some (fnIdxFrom pre 0 ++ [pre.length])
        ∧ (s.runCommand cmd argv).1.map RunResult.mainRan = some false) := by
  constructor
  · intro hall
    obtain ⟨d', h1, h2⟩ := handlerLoop_no_false argv hs 0 .vTrue (by simp) hall
    constructor
    · simp [Service.runCommand, hd, hh, h1]
    · simp [Service.runCommand, hd, hh, h1, bne_iff_ne, h2]
  · intro pre post f hsplit hffalse hall
    have hl := handlerLoop_first_false argv f post hffalse pre 0 .vTrue hall
    rw [Nat.zero_add] at hl
    constructor
    · simp [Service.runCommand, hd, hh, hsplit, hl]
    · simp [Service.runCommand, hd, hh, hsplit, hl]

/-- C6 witness: with the single never-vetoing pre-handler, it is
invoked and the main handler runs. -/
theorem C6_short_circuit_witness :
    (svcC6.runCommand "serve" (JVal.num 0)).1.map RunResult.invoked
        = some (fnIdxFrom [some hTrue] 0)
    ∧ (svcC6.runCommand "serve" (JVal.num 0)).1.map RunResult.mainRan = some true :=
  (C6_short_circuit svcC6 "serve" (JVal.num 0) dC6 [some hTrue]
    (by simp [svcC6, Service.registerCommandFlag, Service.registerCommand, gcn_serve,
      CmdArg.descriptor, emptySvc, emptyCmdState, getA, setA, dC6])
    (by simp [svcC6, Service.registerCommandFlag, Service.registerCommand, gcn_serve,
      emptySvc, emptyCmdState, getA, setA])).1
    (by
      intro g hg
      simp only [List.mem_singleton, Option.some.injEq] at hg
      subst hg
      simp [hTrue])

/-- C5: re-registering a command key replaces the stored descriptor
entirely with the second descriptor while leaving the aggregated flag
map and pre-handler list untouched, and a subsequent dispatch runs the
pre-handlers registered across both registrations in registration
order, followed by only the second descriptor's own handler. -/
theorem C5_reregistration (s0 : Service) (n1 n2 : String) (a1 a2 : CmdArg)
    (f1 f2 : List (String × JVal)) (h1 h2 : JVal → JSVal) (argv : JVal) (c : String)
    (hk1 : getCommandName a1.commandStr = c)
    (hk2 : getCommandName a2.commandStr = c)
    (hn1 : getCommandName n1 = c)
    (hn2 : getCommandName n2 = c)
    (hflags0 : getA c s0.core.registeredCommandFlags = none)
    (hhand0 : getA c s0.core.registeredCommandHandlers = none)
    (hnf1 : h1 argv ≠ .vFalse)
    (hnf2 : h2 argv ≠ .vFalse) :
    (getA c ((((s0.registerCommandFlag n1 f1 h1).registerCommand a1).registerCommandFlag
        n2 f2 h2).registerCommand a2).core.registeredCommands = some a2.descriptor)
    ∧ (((s0.registerCommandFlag n1 f1 h1).registerCommand a1).core.registeredCommandFlags
        = (s0.registerCommandFlag n1 f1 h1).core.registeredCommandFlags)
    ∧ (((s0.registerCommandFlag n1 f1 h1).registerCommand a1).core.registeredCommandHandlers
        = (s0.registerCommandFlag n1 f1 h1).core.registeredCommandHandlers)
    ∧ (((((s0.registerCommandFlag n1 f1 h1).registerCommand a1).registerCommandFlag
        n2 f2 h2).registerCommand a2).core.registeredCommandFlags
        = ((((s0.registerCommandFlag n1 f1 h1).registerCommand a1).registerCommandFlag
        n2 f2 h2)).core.registeredCommandFlags)
    ∧ (((((s0.registerCommandFlag n1 f1 h1).registerCommand a1).registerCommandFlag
        n2 f2 h2).registerCommand a2).core.registeredCommandHandlers
        = ((((s0.registerCommandFlag n1 f1 h1).registerCommand a1).registerCommandFlag
        n2 f2 h2)).core.registeredCommandHandlers)
    ∧ (((((((s0.registerCommandFlag n1 f1 h1).registerCommand a1).registerCommandFlag
        n2 f2 h2).registerCommand a2)).runCommand c argv).1.map RunResult.invoked
        = some [0, 1])
    ∧ (((((((s0.registerCommandFlag n1 f1 h1).registerCommand a1).registerCommandFlag
        n2 f2 h2).registerCommand a2)).runCommand c argv).1.map RunResult.mainRan
        = some true)
    ∧ (((((((s0.registerCommandFlag n1 f1 h1).registerCommand a1).registerCommandFlag
        n2 f2 h2).registerCommand a2)).runCommand c argv).1.map RunResult.mainHandler
        = some a2.descriptor.handler) := by
  have hcmds : getA c ((((s0.registerCommandFlag n1 f1 h1).registerCommand
      a1).registerCommandFlag n2 f2 h2).registerCommand a2).core.registeredCommands
      = some a2.descriptor := by
    simp [Service.registerCommand, Service.registerCommandFlag, descriptor_command,
      hk1, hk2, hn1, hn2, getA_setA]
  have hhands : getA c ((((s0.registerCommandFlag n1 f1 h1).registerCommand
      a1).registerCommandFlag n2 f2 h2).registerCommand a2).core.registeredCommandHandlers
      = some [some h1, some h2] := by
    simp [Service.registerCommand, Service.registerCommandFlag, hn1, hn2, getA_setA, hhand0]
  have hloop : handlerLoop [some h1, some h2] argv 0 .vTrue = ([0, 1], h2 argv) := by
    simp [handlerLoop, hnf1, hnf2]
  refine ⟨hcmds, rfl, rfl, rfl, rfl, ?_, ?_, ?_⟩
  · simp [Service.runCommand, hcmds, hhands, hloop]
  · simp [Service.runCommand, hcmds, hhands, hloop, bne_iff_ne, hnf2]
  · simp [Service.runCommand, hcmds, hhands, hloop]

/-- C5 witness: the concrete double registration of `serve` with one
pre-handler registered before each registration. -/
theorem C5_reregistration_witness :
    (getA "serve" ((((emptySvc.registerCommandFlag "serve" [] hTrue).registerCommand
        a1C5).registerCommandFlag "serve" [] hTrue).registerCommand
        a2C5).core.registeredCommands = some a2C5.descriptor)
    ∧ (((emptySvc.registerCommandFlag "serve" [] hTrue).registerCommand
        a1C5).core.registeredCommandFlags
        = (emptySvc.registerCommandFlag "serve" [] hTrue).core.registeredCommandFlags)
    ∧ (((emptySvc.registerCommandFlag "serve" [] hTrue).registerCommand
        a1C5).core.registeredCommandHandlers
        = (emptySvc.registerCommandFlag "serve" [] hTrue).core.registeredCommandHandlers)
    ∧ ((((emptySvc.registerCommandFlag "serve" [] hTrue).registerCommand
        a1C5).registerCommandFlag "serve" [] hTrue).registerCommand
        a2C5).core.registeredCommandFlags
        = (((emptySvc.registerCommandFlag "serve" [] hTrue).registerCommand
        a1C5).registerCommandFlag "serve" [] hTrue).core.registeredCommandFlags
    ∧ ((((emptySvc.registerCommandFlag "serve" [] hTrue).registerCommand
        a1C5).registerCommandFlag "serve" [] hTrue).registerCommand
        a2C5).core.registeredCommandHandlers
        = (((emptySvc.registerCommandFlag "serve" [] hTrue).registerCommand
        a1C5).registerCommandFlag "serve" [] hTrue).core.registeredCommandHandlers
    ∧ (((((emptySvc.registerCommandFlag "serve" [] hTrue).registerCommand
        a1C5).registerCommandFlag "serve" [] hTrue).registerCommand
        a2C5).runCommand "serve" (JVal.num 0)).1.map RunResult.invoked = some [0, 1]
    ∧ (((((emptySvc.registerCommandFlag "serve" [] hTrue).registerCommand
        a1C5).registerCommandFlag "serve" [] hTrue).registerCommand
        a2C5).runCommand "serve" (JVal.num 0)).1.map RunResult.mainRan = some true
    ∧ (((((emptySvc.registerCommandFlag "serve" [] hTrue).registerCommand
        a1C5).registerCommandFlag "serve" [] hTrue).registerCommand
        a2C5).runCommand "serve" (JVal.num 0)).1.map RunResult.mainHandler
        = some a2C5.descriptor.handler :=
  C5_reregistration emptySvc "serve" "serve" a1C5 a2C5 [] [] hTrue hTrue (JVal.num 0) "serve"
    gcn_serve gcn_serve gcn_serve gcn_serve rfl rfl (by simp [hTrue]) (by simp [hTrue])

/-- C3: the claimed load-failure isolation is the code's intent (each
failure path of `_loadPlugin` only logs), but the implementation slips:
the failed load's `undefined` stays in the resolved plugin list instead
of being omitted, and `initPlugin`'s destructuring of that `undefined`
throws, aborting initialization before the remaining valid plugin is
applied — while the same valid plugin initializes fine when the failing
specifier is absent. -/
theorem C3_code_bug_eval :
    resolvePlugins envNone c3Specs false = [none, some (goodRec, none)]
    ∧ Service.init "production" c3Service
        = .error "TypeError: Cannot destructure property 'id' of 'plugin' as it is undefined."
    ∧ Service.init "production" c3GoodOnly = .ok c3GoodAfter :=
  ⟨rfl, rfl, rfl⟩

end SanCli
